import Mathlib

/-!
Shallow embedding of the SciTools/.github automation scripts:
`templates/_templating_scripting.py`, `peloton/common.py`,
`peloton/populate.py` and `peloton/update_project.py`.

External effects (`gh` subprocess calls, replies of the GitHub GraphQL
server, `git` output) are modelled as explicit parameters: a server reply
becomes an input of the embedded function, and the side effects a routine
would perform are returned as explicit action or request traces.  The pure
data manipulation is translated directly from the Python source.  Python
dicts of strings are modelled as association lists, pandas DataFrames as
lists of rows, and fallible code returns `Option` (with `none` for an
uncaught exception).
-/

/-! ## templates/_templating_scripting.py -/

/-- Embeds `SPRING_CLEANING` (line 16): disables all issue/comment posting. -/
def SPRING_CLEANING : Bool := true

/-- Embeds `BOTS` (line 22). -/
def BOTS : List String :=
  ["dependabot[bot]", "app/dependabot", "pre-commit-ci[bot]", "app/pre-commit-ci"]

/-- An observable GitHub side effect performed through the `gh` CLI. -/
inductive GhAction where
  | create_issue_on : (repo : String) → (title : String) → (body : String) →
      (assignee : Option String) → GhAction
  | pr_review : (pr_number : Nat) → (body : String) → GhAction
deriving DecidableEq

/-- Embeds `Config.TargetRepo` (lines 32-34). -/
structure TargetRepo where
  repo : String
  path_in_repo : String
deriving DecidableEq

/-- Embeds `Config.templates` (line 40): template path ↦ its target repos, as read
from `_templating_include.json`. -/
structure Config where
  templates : List (String × List TargetRepo)
deriving DecidableEq

/-- The `flattened` list built inside `Config.find_template` (lines 52-56):
(template, repo, path_in_repo) triples. -/
def flattenedConfig (c : Config) : List (String × String × String) :=
  c.templates.flatMap (fun t => t.2.map (fun tr => (t.1, tr.repo, tr.path_in_repo)))

/-- Embeds `Config.find_template` (lines 51-65).  `none` models the
`assert len(matches) <= 1` failing; `some r` models a normal return of `r`
(`matches[0] if matches else None`). -/
def find_template (c : Config) (repo : String) (path_in_repo : String) :
    Option (Option String) :=
  let found := ((flattenedConfig c).filter
    (fun x => x.2.1 == repo && x.2.2 == path_in_repo)).map (fun x => x.1)
  if found.length ≤ 1 then some found.head? else none

/-- Titles of the issues created by a list of actions. -/
def created_titles (acts : List GhAction) : List String :=
  acts.filterMap (fun a => match a with
    | .create_issue_on _ t _ _ => some t
    | _ => none)

/-- Embeds `create_issue`, the inner function of `prompt_share` (lines 228-260).

* `existing_titles` is the reply of
  `gh issue list --state all --repo SciTools/.github` (titles of the issues
  already on the repo, in any state);
* `issue_short_ref` is derived from the URL that `gh issue create` prints.

If an issue with the same title already exists the function returns before
creating anything (`some []`: no issue, no review).  Otherwise it creates the
issue on SciTools/.github and posts a request-changes review on the PR.
`none` models the `IndexError` of `list(human_authors)[0]` on an empty set
(the caller guarantees `human_authors` is non-empty). -/
def create_issue (existing_titles : List String) (human_authors : List String)
    (author : String) (pr_number : Nat) (title : String) (body : String)
    (issue_short_ref : String) : Option (List GhAction) :=
  if existing_titles.any (fun t => t == title) then
    some []
  else
    let assignee? := if BOTS.contains author then human_authors.head? else some author
    match assignee? with
    | none => none
    | some assignee =>
      some [GhAction.create_issue_on ".github" title body (some assignee),
            GhAction.pr_review pr_number ("- [ ] Please see: " ++ issue_short_ref)]

/-- Embeds `notify_updates` (lines 71-154): for each changed template, creates one
issue per target repo of that template.  Under `SPRING_CLEANING` the routine
returns immediately and posts nothing.  The issue body (built from the
`git diff` output) is abstracted by the `diff` parameter, since no claim
depends on its text; there is no existing-issue check on this path. -/
def notify_updates (c : Config) (changed_templates : List String)
    (diff : String → String) : List GhAction :=
  if SPRING_CLEANING then []
  else
    changed_templates.flatMap (fun template =>
      let templatees := (c.templates.filter (fun t => t.1 == template)).flatMap (fun t => t.2)
      templatees.map (fun tr =>
        GhAction.create_issue_on tr.repo
          ("The template for `" ++ template ++ "` has been updated")
          (diff template)
          none))

/-! ## peloton/common.py -/

/-- The `first: 100` argument of the team-members query (line 20). -/
def team_members_first : Nat := 100

/-- Embeds `common._get_peloton_logins` (lines 15-52).  The GraphQL server reply is
modelled by the full team member list in API order; the `first: 100`
pagination argument of the query makes the reply its first 100 entries.
The five extra logins are appended afterwards, exactly as in the source. -/
def _get_peloton_logins (team_members : List String) : List String :=
  (team_members.take team_members_first) ++
    ["rcomer",
     "codecov[bot]",
     "github-actions[bot]",
     "pre-commit-ci[bot]",
     "scitools-ci[bot]"]

/-! ## peloton/populate.py -/

/-- Embeds `populate.PAGINATION` (line 25): number of commands per GraphQL query. -/
def PAGINATION : Nat := 20

/-- Embeds `populate.MutationTypes` (lines 28-33). -/
inductive MutationTypes where
  | ADD | DELETE | UPDATE | CLEAR
deriving DecidableEq

/-- The GraphQL mutation name of each `MutationTypes` member. -/
def MutationTypes.gql : MutationTypes → String
  | .ADD => "addProjectV2ItemById"
  | .DELETE => "deleteProjectV2Item"
  | .UPDATE => "updateProjectV2ItemFieldValue"
  | .CLEAR => "clearProjectV2ItemFieldValue"

/-- Embeds `populate.run_mutation` (lines 111-137).  The loop
`for i in range(0, len(lines), PAGINATION)` slices `lines[i : i+PAGINATION]`
and issues one `gh api graphql` call per slice; `exec` models one such call,
returning the item IDs parsed from its JSON reply
(`[v["item"]["id"] for v in data.values()]`), which are only collected when
`return_ids` is true.  Returns (blocks sent, collected IDs). -/
def run_mutation (exec : List String → List String) (return_ids : Bool)
    (lines : List String) : List (List String) × List String :=
  if lines.isEmpty then ([], [])
  else
    let block := lines.take PAGINATION
    let rest := run_mutation exec return_ids (lines.drop PAGINATION)
    (block :: rest.1, (if return_ids then exec block else []) ++ rest.2)
termination_by lines.length
decreasing_by
  simp only [List.length_drop]
  cases lines with
  | nil => simp at *
  | cons a t => simp [PAGINATION]; omega

/-- The f-string `f'"{value}"'` of `build_query_line` (line 149). -/
def quote_value (v : String) : String := "\"" ++ v ++ "\""

/-- Embeds `populate.build_query_line` (lines 140-166).  The Python dict is an
association list; the in-place update `input_dict[key] = f'"{value}"'` for
every key other than `"value"` is returned as the second component.  The
random `mutation_id` is a parameter. -/
def build_query_line (mutation_type : MutationTypes) (mutation_id : String)
    (input_dict : List (String × String)) : String × List (String × String) :=
  let updated := input_dict.map (fun kv =>
    if kv.1 == "value" then kv else (kv.1, quote_value kv.2))
  let input_str := "input: \x7b" ++
    String.intercalate " " (updated.map (fun kv => kv.1 ++ ": " ++ kv.2)) ++ "\x7d"
  let item_suffix :=
    if mutation_type = MutationTypes.ADD then "\x7bitem \x7bid\x7d \x7d"
    else if mutation_type = MutationTypes.DELETE then "\x7bdeletedItemId\x7d"
    else "\x7bprojectV2Item \x7bid\x7d \x7d"
  (mutation_id ++ ": " ++ mutation_type.gql ++ "(\n" ++ input_str ++ "\n) " ++ item_suffix,
   updated)

/-! ## peloton/update_project.py -/

/-- Embeds `PaginatedQuery._PAGINATION` (line 138): page size for queries. -/
def _PAGINATION : Nat := 100

/-- One page of a paginated GraphQL reply: its items plus `pageInfo`. -/
structure QueryPage (α : Type) where
  items : List α
  has_next_page : Bool
  end_cursor : Option String

/-- The pagination arguments of one GraphQL page request. -/
structure PageRequest where
  first : Nat
  after : Option String
deriving DecidableEq

/-- Embeds `PaginatedQuery._build_query` (lines 230-243): the built operation requests
one page of `first = _PAGINATION` items starting after the given cursor. -/
def _build_query (after : Option String) : PageRequest :=
  { first := _PAGINATION, after := after }

/-- Embeds `PaginatedQuery._run_query` (lines 245-270).  The GraphQL server is
modelled by the finite stream of pages it serves to the successive requests:
the loop consumes one page per request, extends `all_items` with the page's
items and continues while `has_next_page` is true, threading `end_cursor`
into the next `_build_query` call.  Returns the collected items and the
trace of page requests issued. -/
def _run_query {α : Type} : List (QueryPage α) → Option String → List α × List PageRequest
  | [], _ => ([], [])
  | page :: rest, end_cursor =>
    let req := _build_query end_cursor
    if page.has_next_page then
      let t := _run_query rest page.end_cursor
      (page.items ++ t.1, req :: t.2)
    else
      (page.items, [req])

/-- The pages the `_run_query` loop actually consumes: every leading page that
reports `has_next_page`, then the first page that does not. -/
def pages_consumed {α : Type} : List (QueryPage α) → List (QueryPage α)
  | [] => []
  | page :: rest => if page.has_next_page then page :: pages_consumed rest else [page]

/-- Embeds `SelectionIds.AUTHOR_PELOTON` (line 115). -/
def AUTHOR_PELOTON : String := "389ebec0"
/-- Embeds `SelectionIds.AUTHOR_EXTERNAL` (line 116). -/
def AUTHOR_EXTERNAL : String := "d961b9b7"
/-- Embeds `SelectionIds.AUTHOR_BOT` (line 117). -/
def AUTHOR_BOT : String := "8fbf3584"
/-- Embeds `SelectionIds.COMMENTER_PELOTON` (line 118). -/
def COMMENTER_PELOTON : String := "98462be7"
/-- Embeds `SelectionIds.COMMENTER_EXTERNAL` (line 119). -/
def COMMENTER_EXTERNAL : String := "235b3d90"
/-- Embeds `SelectionIds.COMMENTER_BOT` (line 120). -/
def COMMENTER_BOT : String := "54adc7eb"
/-- Embeds `SelectionIds.DISCUSSION_WANTED` (line 121). -/
def DISCUSSION_WANTED : String := "e17f4b18"

/-- The (is_peloton, is_bot, is_external) selection ids chosen inside
`categorise_column` for one of the two login columns (lines 626-635). -/
structure LoginCategories where
  is_peloton : String
  is_bot : String
  is_external : String

/-- The ids used when categorising the author login column. -/
def author_categories : LoginCategories :=
  ⟨AUTHOR_PELOTON, AUTHOR_BOT, AUTHOR_EXTERNAL⟩

/-- The ids used when categorising the final-comment login column. -/
def commenter_categories : LoginCategories :=
  ⟨COMMENTER_PELOTON, COMMENTER_BOT, COMMENTER_EXTERNAL⟩

/-- Embeds `bot_override_users` (line 641). -/
def bot_override_users : List String := ["CLAassistant", "codecov-commenter"]

/-- Embeds `numpy.select(condlist, choicelist, default)` for matched-length lists as
used in `_categorise_logins`: the choice of the first true condition wins,
otherwise the default.  (The mismatched-length cases raise in numpy and are
never reached here.) -/
def np_select : List Bool → List String → String → String
  | true :: _, choice :: _, _ => choice
  | false :: conds, _ :: choices, d => np_select conds choices d
  | _, _, d => d

/-- One cell of `IssuesQuery._categorise_logins` (lines 623-661): the
`np.select` call applied to a single row's login and bot-id (a pandas null
bot id is `none`). -/
def categorise_login (peloton_logins : List String) (cats : LoginCategories)
    (login : String) (bot_id : Option String) : String :=
  np_select
    [peloton_logins.contains login,
     bot_id.isSome || bot_override_users.contains login]
    [cats.is_peloton, cats.is_bot]
    cats.is_external

/-- One row of an `IssuesQuery`/`DiscussionsQuery` data frame, restricted to
the columns the claims concern.  `node_id` is the frame's index (the GraphQL
id of the issue / PR / discussion); `labels_text` is the stringified
`labels_data` cell. -/
structure QueryRow where
  node_id : String
  labels_text : String
  discussion_wanted : Option String
  use_draft : Bool
deriving DecidableEq

/-- Row-level content of `IssuesQuery._post_process` (lines 663-687) for the
columns the claims concern: every row gets `use_draft = False`, and rows whose
stringified labels match the case-insensitive regex `decision|help|discussion`
(modelled by the `discuss_match` predicate) get
`discussion_wanted = DISCUSSION_WANTED`. -/
def issues_post_process_row (discuss_match : String → Bool) (r : QueryRow) : QueryRow :=
  let r1 := { r with use_draft := false }
  if discuss_match r1.labels_text then
    { r1 with discussion_wanted := some DISCUSSION_WANTED }
  else r1

/-- Row-level content of `DiscussionsQuery._post_process` (lines 750-757):
after the parent class's processing, every row unconditionally gets
`discussion_wanted = DISCUSSION_WANTED` and `use_draft = True`. -/
def discussions_post_process_row (discuss_match : String → Bool) (r : QueryRow) : QueryRow :=
  let r1 := issues_post_process_row discuss_match r
  { r1 with discussion_wanted := some DISCUSSION_WANTED, use_draft := true }

/-- One row of the `ProjectItemsQuery` data frame, restricted to the columns
the claims concern.  `linked_id` is the text of the `_linked_id` project
field, `none` when that field is unpopulated (pandas null). -/
structure ProjectRow where
  id_in_project : String
  linked_id : Option String
deriving DecidableEq

/-- pandas `Series.isin(index)` on an optional cell: a null cell is never
`isin` any index. -/
def isin_index (ids : List String) : Option String → Bool
  | none => false
  | some s => ids.contains s

/-- Embeds `main` lines 1316-1320: the full-refresh removal set,
`project.data_frame[no_linked_id | orphaned_linked_ids]` where
`no_linked_id` is `linked_id.isnull()` and `orphaned_linked_ids` is
`~linked_id.isin(issues_discussions.index)`. -/
def items_to_remove (project : List ProjectRow) (issue_ids : List String) :
    List ProjectRow :=
  project.filter (fun p => p.linked_id.isNone || !(isin_index issue_ids p.linked_id))

/-- Embeds `main` lines 1331-1335: the right join of the project table onto the
issues/discussions table, `on` the `linked_id` column against the
issues/discussions index.  Every issue/discussion row is kept; each matching
project row (one whose `linked_id` equals the row's `node_id`) yields one
joined row, and a row with no match gets `none` for the project side (pandas
leaves `id_in_project` null there). -/
def joined_rows (project : List ProjectRow) (rows : List QueryRow) :
    List (Option ProjectRow × QueryRow) :=
  rows.flatMap (fun r =>
    let ms := project.filter (fun p => p.linked_id == some r.node_id)
    if ms.isEmpty then [(none, r)] else ms.map (fun p => (some p, r)))

/-- Embeds `not_in_project` (line 1338): the joined row's `id_in_project` is null. -/
def not_in_project (j : Option ProjectRow × QueryRow) : Bool := j.1.isNone

/-- Embeds `issues_to_add` (line 1363): joined rows that are not in the project and
do not use a draft; these are fed to `AddIssuesMutation`. -/
def issues_to_add (joined : List (Option ProjectRow × QueryRow)) :
    List (Option ProjectRow × QueryRow) :=
  joined.filter (fun j => not_in_project j && !j.2.use_draft)

/-- Embeds `drafts_to_add` (line 1373): joined rows that are not in the project and
use a draft; these are fed to `AddDraftsMutation`. -/
def drafts_to_add (joined : List (Option ProjectRow × QueryRow)) :
    List (Option ProjectRow × QueryRow) :=
  joined.filter (fun j => not_in_project j && j.2.use_draft)

/-- State of the retry loop of `_run_sub_mutation` after it finishes:
the `result` and `exception` variables, the number of `run_operation` calls
made and the number of `sleep(5)` calls made. -/
structure RetryTrace (E R : Type) where
  result : Option R
  last_exc : Option E
  calls : Nat
  sleeps : Nat
deriving DecidableEq

/-- The `for attempts in range(5)` loop of `_run_sub_mutation`
(lines 932-942).  `outcome k` is what the k-th `run_operation` call does
(`.ok` a reply or `.error` an exception); on success the loop `break`s at
once (one call, no sleep), on failure it records the exception, sleeps 5
seconds and tries again while fuel remains. -/
def retry_loop {E R : Type} (outcome : Nat → Except E R) :
    Nat → Nat → Option E → RetryTrace E R
  | _, 0, last => ⟨none, last, 0, 0⟩
  | k, fuel + 1, last =>
    match outcome k with
    | .ok r => ⟨some r, last, 1, 0⟩
    | .error e =>
      let rest := retry_loop outcome (k + 1) fuel (some e)
      ⟨rest.result, rest.last_exc, rest.calls + 1, rest.sleeps + 1⟩

/-- The `range(5)` bound of the retry loop (line 935). -/
def RETRY_LIMIT : Nat := 5

/-- What `_run_sub_mutation` does after its retry loop: return the page's
payloads, re-raise the recorded exception, or raise the "Unexpected"
`RuntimeError` (lines 944-952). -/
inductive MutationOutcome (E P : Type) where
  | payloads : List P → MutationOutcome E P
  | raised : E → MutationOutcome E P
  | unexpected_no_result : MutationOutcome E P
deriving DecidableEq

/-- Python's `xs[a:b]` slice. -/
def py_slice {α : Type} (xs : List α) (a b : Nat) : List α := (xs.take b).drop a

/-- Embeds `PaginatedMutation._run_sub_mutation` (lines 924-952).  A successful
`run_operation` reply is a map alias ↦ payload (`result[a]` in the source);
`aliases` is `self._aliases` and `(a, b)` the bounds of `page_slice`.  After
the retry loop: on success the payloads of exactly this page's aliases are
returned; otherwise the recorded exception is re-raised; were both `result`
and `exception` unset, the "Unexpected" `RuntimeError` would be raised. -/
def _run_sub_mutation {E P : Type} (outcome : Nat → Except E (String → P))
    (aliases : List String) (a b : Nat) : MutationOutcome E P :=
  let t := retry_loop outcome 0 RETRY_LIMIT none
  match t.result with
  | some r => .payloads ((py_slice aliases a b).map r)
  | none =>
    match t.last_exc with
    | some e => .raised e
    | none => .unexpected_no_result

/-! ## Theorems -/

/-! ### Pagination of `PaginatedQuery._run_query` (claim C3) -/

theorem run_query_items {α : Type} (pages : List (QueryPage α)) (cursor : Option String) :
    (_run_query pages cursor).1 = (pages_consumed pages).flatMap (fun p => p.items) := by
  induction pages generalizing cursor with
  | nil => rfl
  | cons page rest ih =>
    by_cases hn : page.has_next_page
    · simp [_run_query, pages_consumed, hn, ih]
    · simp [_run_query, pages_consumed, hn]

theorem run_query_reqs_first {α : Type} (pages : List (QueryPage α)) (cursor : Option String)
    (r : PageRequest) (hr : r ∈ (_run_query pages cursor).2) : r.first = _PAGINATION := by
  induction pages generalizing cursor with
  | nil => simp [_run_query] at hr
  | cons page rest ih =>
    by_cases hn : page.has_next_page
    · simp only [_run_query, hn, if_pos] at hr
      rcases List.mem_cons.mp hr with h | h
      · subst h; rfl
      · exact ih page.end_cursor h
    · simp only [_run_query, hn] at hr
      simp at hr
      subst hr; rfl

theorem run_query_reqs_len {α : Type} (pages : List (QueryPage α)) (cursor : Option String) :
    (_run_query pages cursor).2.length = (pages_consumed pages).length := by
  induction pages generalizing cursor with
  | nil => rfl
  | cons page rest ih =>
    by_cases hn : page.has_next_page
    · simp [_run_query, pages_consumed, hn, ih]
    · simp [_run_query, pages_consumed, hn]

theorem run_query_get_zero {α : Type} (pages : List (QueryPage α)) (cursor : Option String)
    (h : 0 < (_run_query pages cursor).2.length) :
    (_run_query pages cursor).2.get ⟨0, h⟩ = _build_query cursor := by
  cases pages with
  | nil => simp [_run_query] at h
  | cons page rest =>
    by_cases hn : page.has_next_page
    · simp [_run_query, hn]
    · simp [_run_query, hn]

theorem run_query_head {α : Type} (pages : List (QueryPage α)) (cursor : Option String)
    (h : pages ≠ []) :
    (_run_query pages cursor).2.head? = some (_build_query cursor) := by
  cases pages with
  | nil => exact absurd rfl h
  | cons page rest =>
    by_cases hn : page.has_next_page
    · simp [_run_query, hn]
    · simp [_run_query, hn]

theorem run_query_after {α : Type} (pages : List (QueryPage α)) (cursor : Option String)
    (i : Nat) (h1 : i + 1 < (_run_query pages cursor).2.length)
    (h2 : i < (pages_consumed pages).length) :
    ((_run_query pages cursor).2.get ⟨i + 1, h1⟩).after =
      ((pages_consumed pages).get ⟨i, h2⟩).end_cursor := by
  induction pages generalizing cursor i with
  | nil => simp [pages_consumed] at h2
  | cons page rest ih =>
    by_cases hn : page.has_next_page
    case pos =>
      have hreq : (_run_query (page :: rest) cursor).2 =
          _build_query cursor :: (_run_query rest page.end_cursor).2 := by
        simp [_run_query, hn]
      have hcon : pages_consumed (page :: rest) = page :: pages_consumed rest := by
        simp [pages_consumed, hn]
      have h1' : i + 1 < (_build_query cursor :: (_run_query rest page.end_cursor).2).length := by
        rw [hreq] at h1; exact h1
      have h2' : i < (page :: pages_consumed rest).length := by
        rw [hcon] at h2; exact h2
      rw [List.get_of_eq hreq ⟨i + 1, h1⟩, List.get_of_eq hcon ⟨i, h2⟩]
      cases i with
      | zero =>
        have h1x : 0 < (_run_query rest page.end_cursor).2.length := by
          simpa using h1'
        have hz := run_query_get_zero rest page.end_cursor h1x
        simp only [List.get_eq_getElem, List.getElem_cons_succ, List.getElem_cons_zero]
        simp only [List.get_eq_getElem] at hz
        rw [hz]
        rfl
      | succ j =>
        have hj1 : j + 1 < (_run_query rest page.end_cursor).2.length := by
          simpa using h1'
        have hj2 : j < (pages_consumed rest).length := by
          simpa using h2'
        have hstep := ih page.end_cursor j hj1 hj2
        simp only [List.get_eq_getElem, List.getElem_cons_succ]
        simp only [List.get_eq_getElem] at hstep
        exact hstep
    case neg =>
      have hreq : (_run_query (page :: rest) cursor).2 = [_build_query cursor] := by
        simp [_run_query, hn]
      rw [hreq] at h1
      simp at h1

theorem pages_consumed_eq {α : Type} (pages : List (QueryPage α)) :
    pages_consumed pages =
      pages.takeWhile (fun p => p.has_next_page) ++
        (pages.dropWhile (fun p => p.has_next_page)).take 1 := by
  induction pages with
  | nil => rfl
  | cons page rest ih =>
    by_cases hn : page.has_next_page
    · simp [pages_consumed, List.takeWhile_cons, List.dropWhile_cons, hn, ih]
    · simp [pages_consumed, List.takeWhile_cons, List.dropWhile_cons, hn]

/-- Claim C3: for every query, `_run_query` requests pages of
`first = _PAGINATION = 100` items, passes each consumed page's `end_cursor`
as the `after` argument of the next request (the first request carrying the
initial cursor), stops exactly with the first page that reports
`has_next_page` false (`pages_consumed` is the leading `has_next_page`-true
pages plus that one), and returns the concatenation of the consumed pages'
items in request order. -/
theorem claim_C3 {α : Type} (pages : List (QueryPage α)) (cursor : Option String) :
    ((_run_query pages cursor).1 = (pages_consumed pages).flatMap (fun p => p.items)) ∧
    (∀ r ∈ (_run_query pages cursor).2, r.first = _PAGINATION) ∧
    (_PAGINATION = 100) ∧
    ((_run_query pages cursor).2.length = (pages_consumed pages).length) ∧
    (pages ≠ [] → (_run_query pages cursor).2.head? = some (_build_query cursor)) ∧
    (∀ (i : Nat) (h1 : i + 1 < (_run_query pages cursor).2.length)
        (h2 : i < (pages_consumed pages).length),
      ((_run_query pages cursor).2.get ⟨i + 1, h1⟩).after =
        ((pages_consumed pages).get ⟨i, h2⟩).end_cursor) ∧
    (pages_consumed pages =
      pages.takeWhile (fun p => p.has_next_page) ++
        (pages.dropWhile (fun p => p.has_next_page)).take 1) :=
  ⟨run_query_items pages cursor,
   fun r hr => run_query_reqs_first pages cursor r hr,
   rfl,
   run_query_reqs_len pages cursor,
   fun h => run_query_head pages cursor h,
   fun i h1 h2 => run_query_after pages cursor i h1 h2,
   pages_consumed_eq pages⟩

/-- Witness for C3 on a concrete two-page server reply. -/
theorem claim_C3_witness :
    ((_run_query [(⟨["a"], true, some "c1"⟩ : QueryPage String), ⟨["b"], false, none⟩] none).1
      = ["a", "b"]) ∧
    ((_run_query [(⟨["a"], true, some "c1"⟩ : QueryPage String), ⟨["b"], false, none⟩] none).2.head?
      = some ⟨100, none⟩) ∧
    (((_run_query [(⟨["a"], true, some "c1"⟩ : QueryPage String), ⟨["b"], false, none⟩] none).2.get
        ⟨1, by decide⟩).after = some "c1") := by
  have h := claim_C3 [(⟨["a"], true, some "c1"⟩ : QueryPage String), ⟨["b"], false, none⟩] none
  refine ⟨by decide, ?_, ?_⟩
  · have := h.2.2.2.2.1 (List.cons_ne_nil _ _)
    simpa [_build_query, _PAGINATION] using this
  · have := h.2.2.2.2.2.1 0 (by decide) (by decide)
    simpa using this

/-! ### Blocking of `populate.run_mutation` (claim C5) -/

theorem run_mutation_blocks_flatten (exec : List String → List String) (return_ids : Bool)
    (lines : List String) : (run_mutation exec return_ids lines).1.flatten = lines := by
  rw [run_mutation]
  by_cases h : lines.isEmpty
  · simp [h]
    exact List.isEmpty_iff.mp h
  · have ih := run_mutation_blocks_flatten exec return_ids (lines.drop PAGINATION)
    simp [h, ih]
termination_by lines.length
decreasing_by
  simp only [List.length_drop]
  cases lines with
  | nil => simp at h
  | cons a t => simp [PAGINATION]; omega

theorem run_mutation_blocks_bounded (exec : List String → List String) (return_ids : Bool)
    (lines : List String) (b : List String)
    (hb : b ∈ (run_mutation exec return_ids lines).1) :
    b ≠ [] ∧ b.length ≤ PAGINATION := by
  rw [run_mutation] at hb
  by_cases h : lines.isEmpty
  · simp [h] at hb
  · simp only [h, if_neg, Bool.false_eq_true, not_false_iff, List.mem_cons] at hb
    rcases hb with hb | hb
    · subst hb
      constructor
      · intro hcontra
        have : lines = [] := by
          rcases lines with _ | ⟨a, t⟩
          · rfl
          · simp [PAGINATION] at hcontra
        simp [this] at h
      · exact List.length_take_le PAGINATION lines
    · exact run_mutation_blocks_bounded exec return_ids (lines.drop PAGINATION) b hb
termination_by lines.length
decreasing_by
  simp only [List.length_drop]
  cases lines with
  | nil => simp at h
  | cons a t => simp [PAGINATION]; omega

theorem run_mutation_ids_eq (exec : List String → List String) (lines : List String) :
    (run_mutation exec true lines).2 = (run_mutation exec true lines).1.flatMap exec := by
  rw [run_mutation]
  by_cases h : lines.isEmpty
  · simp [h]
  · have ih := run_mutation_ids_eq exec (lines.drop PAGINATION)
    simp [h, ih]
termination_by lines.length
decreasing_by
  simp only [List.length_drop]
  cases lines with
  | nil => simp at h
  | cons a t => simp [PAGINATION]; omega

/-- Claim C5: `populate.run_mutation` partitions the input lines into
consecutive non-empty blocks of at most `PAGINATION = 20` lines (their
concatenation, in block order, is the original list), issues one GraphQL
mutation per block in list order (the first component is that trace of
blocks), and with `return_ids` true returns the mutated item IDs of all
blocks concatenated in block order. -/
theorem claim_C5 (exec : List String → List String) (lines : List String) :
    ((run_mutation exec true lines).1.flatten = lines) ∧
    (∀ b ∈ (run_mutation exec true lines).1, b ≠ [] ∧ b.length ≤ PAGINATION) ∧
    (PAGINATION = 20) ∧
    ((run_mutation exec true lines).2 = (run_mutation exec true lines).1.flatMap exec) :=
  ⟨run_mutation_blocks_flatten exec true lines,
   fun b hb => run_mutation_blocks_bounded exec true lines b hb,
   rfl,
   run_mutation_ids_eq exec lines⟩

/-- Witness for C5: 21 lines are split into one block of 20 and one of 1. -/
theorem claim_C5_witness :
    ((run_mutation (fun x => x) true (List.replicate 21 "x")).1 =
      [List.replicate 20 "x", ["x"]]) ∧
    (List.replicate 20 "x" ≠ [] ∧ (List.replicate 20 "x").length ≤ PAGINATION) := by
  have h := claim_C5 (fun x => x) (List.replicate 21 "x")
  have hd1 : (List.replicate 21 "x").drop PAGINATION = ["x"] := by decide
  have hd2 : (["x"] : List String).drop PAGINATION = [] := by decide
  have hblocks : (run_mutation (fun x => x) true (List.replicate 21 "x")).1 =
      [List.replicate 20 "x", ["x"]] := by
    rw [run_mutation, hd1, run_mutation, hd2, run_mutation]
    decide
  refine ⟨hblocks, ?_⟩
  have hmem : List.replicate 20 "x" ∈
      (run_mutation (fun x => x) true (List.replicate 21 "x")).1 := by
    rw [hblocks]; exact List.mem_cons_self _ _
  exact h.2.1 _ hmem

/-! ### `common._get_peloton_logins` (claim C7) -/

/-- Claim C7: the login list equals the Peloton team member logins (first
100, in API order) followed by exactly the five extra entries, in order;
equivalently, dropping the team-member part leaves exactly those five. -/
theorem claim_C7 (team_members : List String) :
    (_get_peloton_logins team_members =
      team_members.take 100 ++
        ["rcomer", "codecov[bot]", "github-actions[bot]", "pre-commit-ci[bot]",
         "scitools-ci[bot]"]) ∧
    ((_get_peloton_logins team_members).drop (team_members.take 100).length =
      ["rcomer", "codecov[bot]", "github-actions[bot]", "pre-commit-ci[bot]",
       "scitools-ci[bot]"]) := by
  constructor
  · rfl
  · show (team_members.take 100 ++ _).drop (team_members.take 100).length = _
    rw [List.drop_left]

/-! ### Retry loop of `PaginatedMutation._run_sub_mutation` (claim C4) -/

theorem retry_loop_calls_le {E R : Type} (outcome : Nat → Except E R)
    (n k : Nat) (last : Option E) : (retry_loop outcome k n last).calls ≤ n := by
  induction n generalizing k last with
  | zero => simp [retry_loop]
  | succ n ih =>
    cases h : outcome k with
    | ok r => simp [retry_loop, h]
    | error e =>
      have := ih (k + 1) (some e)
      simp only [retry_loop, h]
      omega

theorem retry_loop_pos_calls {E R : Type} (outcome : Nat → Except E R)
    (n k : Nat) (last : Option E)
    (h : (retry_loop outcome k n last).result.isSome = true) :
    1 ≤ (retry_loop outcome k n last).calls := by
  induction n generalizing k last with
  | zero => simp [retry_loop] at h
  | succ n ih =>
    cases ho : outcome k with
    | ok r => simp [retry_loop, ho]
    | error e => simp only [retry_loop, ho]; omega

theorem retry_loop_sleeps {E R : Type} (outcome : Nat → Except E R)
    (n k : Nat) (last : Option E) :
    (retry_loop outcome k n last).sleeps =
      if (retry_loop outcome k n last).result.isSome
      then (retry_loop outcome k n last).calls - 1
      else (retry_loop outcome k n last).calls := by
  induction n generalizing k last with
  | zero => simp [retry_loop]
  | succ n ih =>
    cases ho : outcome k with
    | ok r => simp [retry_loop, ho]
    | error e =>
      have hih := ih (k + 1) (some e)
      have hpos := retry_loop_pos_calls outcome n (k + 1) (some e)
      simp only [retry_loop, ho]
      by_cases hs : (retry_loop outcome (k + 1) n (some e)).result.isSome
      · rw [if_pos hs] at hih
        have h1 := hpos hs
        simp only [hs, if_pos]
        omega
      · rw [if_neg hs] at hih
        simp only [hs]
        simp only [Bool.false_eq_true, if_neg, not_false_iff]
        omega

theorem retry_loop_success {E R : Type} (outcome : Nat → Except E R) :
    ∀ (m n k : Nat) (last : Option E) (r : R), m < n →
      (∀ j, j < m → ∃ e, outcome (k + j) = Except.error e) →
      outcome (k + m) = Except.ok r →
      (retry_loop outcome k n last).result = some r ∧
      (retry_loop outcome k n last).calls = m + 1 ∧
      (retry_loop outcome k n last).sleeps = m := by
  intro m
  induction m with
  | zero =>
    intro n k last r hmn hfail hok
    obtain ⟨n2, rfl⟩ : ∃ n2, n = n2 + 1 := ⟨n - 1, by omega⟩
    rw [Nat.add_zero] at hok
    simp [retry_loop, hok]
  | succ m ih =>
    intro n k last r hmn hfail hok
    obtain ⟨n2, rfl⟩ : ∃ n2, n = n2 + 1 := ⟨n - 1, by omega⟩
    obtain ⟨e0, he0⟩ := hfail 0 (Nat.succ_pos m)
    rw [Nat.add_zero] at he0
    have hfail2 : ∀ j, j < m → ∃ e, outcome (k + 1 + j) = Except.error e := by
      intro j hj
      have := hfail (j + 1) (by omega)
      rwa [show k + (j + 1) = k + 1 + j by omega] at this
    have hok2 : outcome (k + 1 + m) = Except.ok r := by
      rwa [show k + (m + 1) = k + 1 + m by omega] at hok
    have hrec := ih n2 (k + 1) (some e0) r (by omega) hfail2 hok2
    simp only [retry_loop, he0]
    refine ⟨hrec.1, ?_, ?_⟩
    · have := hrec.2.1; omega
    · have := hrec.2.2; omega

theorem retry_loop_all_fail {E R : Type} (outcome : Nat → Except E R) :
    ∀ (n k : Nat) (last : Option E),
      (∀ j, j < n → ∃ e, outcome (k + j) = Except.error e) →
      (retry_loop outcome k n last).result = none ∧
      (retry_loop outcome k n last).calls = n ∧
      (retry_loop outcome k n last).sleeps = n := by
  intro n
  induction n with
  | zero => intro k last _; simp [retry_loop]
  | succ n ih =>
    intro k last hfail
    obtain ⟨e0, he0⟩ := hfail 0 (Nat.succ_pos n)
    rw [Nat.add_zero] at he0
    have hfail2 : ∀ j, j < n → ∃ e, outcome (k + 1 + j) = Except.error e := by
      intro j hj
      have := hfail (j + 1) (by omega)
      rwa [show k + (j + 1) = k + 1 + j by omega] at this
    have hrec := ih (k + 1) (some e0) hfail2
    simp only [retry_loop, he0]
    refine ⟨hrec.1, ?_, ?_⟩
    · have := hrec.2.1; omega
    · have := hrec.2.2; omega

theorem retry_loop_last_exc {E R : Type} (outcome : Nat → Except E R) :
    ∀ (n k : Nat) (last : Option E) (e : E),
      (∀ j, j < n → ∃ e2, outcome (k + j) = Except.error e2) →
      outcome (k + n) = Except.error e →
      (retry_loop outcome k (n + 1) last).last_exc = some e := by
  intro n
  induction n with
  | zero =>
    intro k last e _ herr
    rw [Nat.add_zero] at herr
    simp [retry_loop, herr]
  | succ n ih =>
    intro k last e hfail herr
    obtain ⟨e0, he0⟩ := hfail 0 (Nat.succ_pos n)
    rw [Nat.add_zero] at he0
    have hfail2 : ∀ j, j < n → ∃ e2, outcome (k + 1 + j) = Except.error e2 := by
      intro j hj
      have := hfail (j + 1) (by omega)
      rwa [show k + (j + 1) = k + 1 + j by omega] at this
    have herr2 : outcome (k + 1 + n) = Except.error e := by
      rwa [show k + (n + 1) = k + 1 + n by omega] at herr
    have hrec := ih (k + 1) (some e0) e hfail2 herr2
    simp only [retry_loop, he0]
    exact hrec

/-- Claim C4: for every page of mutation fields, `_run_sub_mutation` attempts
the mutation at most `RETRY_LIMIT = 5` times, sleeps 5 seconds after each
failed attempt and only after failed ones (the sleep count equals the failed
call count), on the first success returns the payloads for exactly that
page's aliases (`aliases[a:b]`, read off the successful reply), and when all
5 attempts raise it re-raises the most recent exception. -/
theorem claim_C4 {E P : Type} (outcome : Nat → Except E (String → P))
    (aliases : List String) (a b : Nat) :
    ((retry_loop outcome 0 RETRY_LIMIT none).calls ≤ RETRY_LIMIT) ∧
    (RETRY_LIMIT = 5) ∧
    ((retry_loop outcome 0 RETRY_LIMIT none).sleeps =
      if (retry_loop outcome 0 RETRY_LIMIT none).result.isSome
      then (retry_loop outcome 0 RETRY_LIMIT none).calls - 1
      else (retry_loop outcome 0 RETRY_LIMIT none).calls) ∧
    (∀ (m : Nat) (r : String → P), m < RETRY_LIMIT →
      (∀ j, j < m → ∃ e, outcome j = Except.error e) →
      outcome m = Except.ok r →
      _run_sub_mutation outcome aliases a b =
        MutationOutcome.payloads ((py_slice aliases a b).map r) ∧
      (retry_loop outcome 0 RETRY_LIMIT none).calls = m + 1 ∧
      (retry_loop outcome 0 RETRY_LIMIT none).sleeps = m) ∧
    (∀ e : E,
      (∀ j, j < RETRY_LIMIT → ∃ e2, outcome j = Except.error e2) →
      outcome (RETRY_LIMIT - 1) = Except.error e →
      _run_sub_mutation outcome aliases a b = MutationOutcome.raised e) := by
  refine ⟨retry_loop_calls_le outcome RETRY_LIMIT 0 none, rfl,
    retry_loop_sleeps outcome RETRY_LIMIT 0 none, ?_, ?_⟩
  · intro m r hm hfail hok
    have hfail0 : ∀ j, j < m → ∃ e, outcome (0 + j) = Except.error e := by
      intro j hj
      rw [Nat.zero_add]
      exact hfail j hj
    have hok0 : outcome (0 + m) = Except.ok r := by rw [Nat.zero_add]; exact hok
    have hres := retry_loop_success outcome m RETRY_LIMIT 0 none r hm hfail0 hok0
    refine ⟨?_, hres.2.1, hres.2.2⟩
    simp [_run_sub_mutation, hres.1]
  · intro e hfail herr
    have hfail0 : ∀ j, j < RETRY_LIMIT → ∃ e2, outcome (0 + j) = Except.error e2 := by
      intro j hj
      rw [Nat.zero_add]
      exact hfail j hj
    have hnone := (retry_loop_all_fail outcome RETRY_LIMIT 0 none hfail0).1
    have hfail4 : ∀ j, j < RETRY_LIMIT - 1 → ∃ e2, outcome (0 + j) = Except.error e2 := by
      intro j hj
      rw [Nat.zero_add]
      exact hfail j (by omega)
    have herr0 : outcome (0 + (RETRY_LIMIT - 1)) = Except.error e := by
      rw [Nat.zero_add]; exact herr
    have hexc := retry_loop_last_exc outcome (RETRY_LIMIT - 1) 0 none e hfail4 herr0
    have hlim : RETRY_LIMIT - 1 + 1 = RETRY_LIMIT := rfl
    rw [hlim] at hexc
    simp [_run_sub_mutation, hnone, hexc]

/-- Witness for C4: first attempt raises, second succeeds; the payloads for
aliases 1 and 2 of the page are returned. -/
theorem claim_C4_witness :
    _run_sub_mutation
        (fun k => if k = 0 then Except.error "boom"
                  else Except.ok (fun _ => (7 : Nat)))
        ["op_0", "op_1", "op_2"] 1 3 =
      MutationOutcome.payloads [7, 7] := by
  have h := claim_C4 (E := String) (P := Nat)
    (fun k => if k = 0 then Except.error "boom"
              else Except.ok (fun _ => (7 : Nat)))
    ["op_0", "op_1", "op_2"] 1 3
  have hres := (h.2.2.2.1 1 (fun _ => (7 : Nat)) (by decide)
    (fun j hj => by
      have hj0 : j = 0 := by omega
      subst hj0
      exact ⟨"boom", rfl⟩)
    (by rfl)).1
  rw [hres]
  rfl

/-! ### `IssuesQuery._categorise_logins` (claim C9) -/

/-- Claim C9: `_categorise_logins` assigns exactly one membership category per
row with fixed precedence: a login in `peloton_logins` is categorised
PELOTON even when it also has a non-null bot id; otherwise a non-null bot id
or membership in `bot_override_users` gives BOT; every remaining login is
EXTERNAL. -/
theorem claim_C9 (peloton_logins : List String) (cats : LoginCategories)
    (login : String) (bot_id : Option String) :
    (login ∈ peloton_logins →
      categorise_login peloton_logins cats login bot_id = cats.is_peloton) ∧
    (login ∉ peloton_logins → (bot_id ≠ none ∨ login ∈ bot_override_users) →
      categorise_login peloton_logins cats login bot_id = cats.is_bot) ∧
    (login ∉ peloton_logins → bot_id = none → login ∉ bot_override_users →
      categorise_login peloton_logins cats login bot_id = cats.is_external) := by
  refine ⟨?_, ?_, ?_⟩
  · intro hmem
    simp [categorise_login, np_select, hmem]
  · intro hmem hbot
    rcases hbot with hne | hov
    · obtain ⟨v, rfl⟩ : ∃ v, bot_id = some v := by
        cases bot_id with
        | none => exact absurd rfl hne
        | some v => exact ⟨v, rfl⟩
      simp [categorise_login, np_select, hmem]
    · simp [categorise_login, np_select, hmem, hov]
  · intro hmem hbot hover
    subst hbot
    simp [categorise_login, np_select, hmem, hover]

/-- Witness for C9: a Peloton member with a bot id is still PELOTON; a
non-member with a bot id is BOT; `CLAassistant` with no bot id is BOT; a
plain external login is EXTERNAL. -/
theorem claim_C9_witness :
    (categorise_login ["alice"] author_categories "alice" (some "BOT_ID") =
      author_categories.is_peloton) ∧
    (categorise_login ["alice"] author_categories "dependabot" (some "BOT_ID") =
      author_categories.is_bot) ∧
    (categorise_login ["alice"] commenter_categories "CLAassistant" none =
      commenter_categories.is_bot) ∧
    (categorise_login ["alice"] commenter_categories "carol" none =
      commenter_categories.is_external) := by
  refine ⟨?_, ?_, ?_, ?_⟩
  · exact (claim_C9 ["alice"] author_categories "alice" (some "BOT_ID")).1 (by decide)
  · exact (claim_C9 ["alice"] author_categories "dependabot" (some "BOT_ID")).2.1
      (by decide) (Or.inl (by decide))
  · exact (claim_C9 ["alice"] commenter_categories "CLAassistant" none).2.1
      (by decide) (Or.inr (by decide))
  · exact (claim_C9 ["alice"] commenter_categories "carol" none).2.2
      (by decide) rfl (by decide)

/-! ### In-place dict update of `populate.build_query_line` (claim C8) -/

/-- Claim C8: `build_query_line` mutates its `input_dict` argument in place:
after every call, each entry whose key is not `"value"` holds the original
value wrapped in double quotes, while the entry under key `"value"` (if
present) is unchanged.  Keys and the number of entries are preserved. -/
theorem claim_C8 (mutation_type : MutationTypes) (mutation_id : String)
    (input_dict : List (String × String)) :
    ((build_query_line mutation_type mutation_id input_dict).2.length =
      input_dict.length) ∧
    (∀ (i : Nat) (h : i < input_dict.length)
        (h2 : i < (build_query_line mutation_type mutation_id input_dict).2.length),
      ((build_query_line mutation_type mutation_id input_dict).2.get ⟨i, h2⟩).1 =
        (input_dict.get ⟨i, h⟩).1 ∧
      ((build_query_line mutation_type mutation_id input_dict).2.get ⟨i, h2⟩).2 =
        (if (input_dict.get ⟨i, h⟩).1 = "value"
         then (input_dict.get ⟨i, h⟩).2
         else quote_value (input_dict.get ⟨i, h⟩).2)) := by
  have hsnd : (build_query_line mutation_type mutation_id input_dict).2 =
      input_dict.map (fun kv => if kv.1 == "value" then kv else (kv.1, quote_value kv.2)) :=
    rfl
  constructor
  · rw [hsnd, List.length_map]
  · intro i h h2
    have hget : (build_query_line mutation_type mutation_id input_dict).2.get ⟨i, h2⟩ =
        (fun kv => if kv.1 == "value" then kv else (kv.1, quote_value kv.2))
          (input_dict.get ⟨i, h⟩) := by
      rw [List.get_of_eq hsnd ⟨i, h2⟩]
      simp [List.get_eq_getElem, List.getElem_map]
    rw [hget]
    simp only [List.get_eq_getElem]
    by_cases hk : input_dict[i].1 = "value"
    · simp [hk]
    · simp [hk]

/-- Witness for C8 on a two-entry dict: the `projectId` entry is quoted in
place, the `value` entry is untouched. -/
theorem claim_C8_witness :
    ((build_query_line MutationTypes.UPDATE "abc"
        [("projectId", "PVT_1"), ("value", "V")]).2.get ⟨0, by decide⟩ =
      ("projectId", "\"PVT_1\"")) ∧
    ((build_query_line MutationTypes.UPDATE "abc"
        [("projectId", "PVT_1"), ("value", "V")]).2.get ⟨1, by decide⟩ =
      ("value", "V")) := by
  have h := claim_C8 MutationTypes.UPDATE "abc" [("projectId", "PVT_1"), ("value", "V")]
  have h0 := h.2 0 (by decide) (by decide)
  have h1 := h.2 1 (by decide) (by decide)
  constructor
  · have hk := h0.1
    have hv := h0.2
    simp only [show (([("projectId", "PVT_1"), ("value", "V")] :
      List (String × String)).get ⟨0, by decide⟩) = ("projectId", "PVT_1") from rfl] at hk hv
    simp at hv
    exact Prod.ext hk (by simpa [quote_value] using hv)
  · have hk := h1.1
    have hv := h1.2
    simp only [show (([("projectId", "PVT_1"), ("value", "V")] :
      List (String × String)).get ⟨1, by decide⟩) = ("value", "V") from rfl] at hk hv
    simp at hv
    exact Prod.ext hk hv

/-! ### Idempotent issue creation in the templating scripts (claim C1) -/

/-- Claim C1: issue creation by the templating notifier is idempotent.  If an
issue with the exact title already exists on SciTools/.github (in any
state), `create_issue` creates no new issue and posts no follow-up review
(`some []`); `notify_updates` currently posts nothing at all
(`SPRING_CLEANING` is true in the source); and running `create_issue` twice
on the same inputs — the second time against the issue list that the first
run produced — creates each issue at most once. -/
theorem claim_C1 (existing_titles human_authors : List String) (author : String)
    (pr_number : Nat) (title body issue_short_ref : String)
    (c : Config) (changed_templates : List String) (diff : String → String) :
    (existing_titles.contains title →
      create_issue existing_titles human_authors author pr_number title body
        issue_short_ref = some []) ∧
    (notify_updates c changed_templates diff = []) ∧
    (let first_run := (create_issue existing_titles human_authors author pr_number
        title body issue_short_ref).getD []
     let second_run := (create_issue (existing_titles ++ created_titles first_run)
        human_authors author pr_number title body issue_short_ref).getD []
     (created_titles (first_run ++ second_run)).count title ≤ 1) := by
  refine ⟨?_, rfl, ?_⟩
  · intro hcont
    have hex : existing_titles.any (fun t => t == title) = true := by
      rw [List.any_eq_true]
      exact ⟨title, by simpa using hcont, by simp⟩
    simp [create_issue, hex]
  · dsimp only
    by_cases hex : existing_titles.any (fun t => t == title)
    · simp [create_issue, hex, created_titles]
    · cases hass : (if BOTS.contains author then human_authors.head? else some author) with
      | none =>
        have hfirst : create_issue existing_titles human_authors author pr_number
            title body issue_short_ref = none := by
          rw [create_issue, if_neg (by simp [hex]), hass]
        rw [hfirst]
        simp only [Option.getD_none]
        rw [show created_titles [] = [] from rfl, List.append_nil, hfirst]
        simp [created_titles]
      | some assignee =>
        have hfirst : create_issue existing_titles human_authors author pr_number
            title body issue_short_ref =
            some [GhAction.create_issue_on ".github" title body (some assignee),
                  GhAction.pr_review pr_number ("- [ ] Please see: " ++ issue_short_ref)] := by
          rw [create_issue, if_neg (by simp [hex]), hass]
        have hct : created_titles ((create_issue existing_titles human_authors author
            pr_number title body issue_short_ref).getD []) = [title] := by
          rw [hfirst]
          simp [created_titles]
        rw [hct]
        have hex2 : ((existing_titles ++ [title]).any (fun t => t == title)) = true := by
          rw [List.any_eq_true]
          exact ⟨title, by simp, by simp⟩
        have hsecond : create_issue (existing_titles ++ [title]) human_authors author
            pr_number title body issue_short_ref = some [] := by
          simp [create_issue, hex2]
        rw [hsecond]
        rw [hfirst]
        simp [created_titles]

/-- Witness for C1: with the title already present, nothing is posted. -/
theorem claim_C1_witness :
    create_issue ["Share SciTools/iris#1 changes via templating?"] ["alice"] "bob" 1
      "Share SciTools/iris#1 changes via templating?" "body text" "SciTools/.github#9" =
      some [] := by
  exact (claim_C1 ["Share SciTools/iris#1 changes via templating?"] ["alice"] "bob" 1
    "Share SciTools/iris#1 changes via templating?" "body text" "SciTools/.github#9"
    ⟨[]⟩ [] (fun _ => "")).1 (by decide)

/-! ### Full-refresh reconciliation in `update_project.main` (claims C2, C6) -/

theorem filter_isEmpty_iff_any_false {α : Type} (l : List α) (p : α → Bool) :
    (l.filter p).isEmpty = true ↔ l.any p = false := by
  constructor
  · intro hnil
    by_contra hany
    rw [Bool.not_eq_false, List.any_eq_true] at hany
    obtain ⟨x, hx, hpx⟩ := hany
    have hmem : x ∈ l.filter p := List.mem_filter.mpr ⟨hx, hpx⟩
    rw [List.isEmpty_iff.mp hnil] at hmem
    simp at hmem
  · intro hany
    rw [List.isEmpty_iff]
    by_contra hne
    obtain ⟨x, hx⟩ := List.exists_mem_of_ne_nil _ hne
    obtain ⟨hxl, hxp⟩ := List.mem_filter.mp hx
    have : l.any p = true := List.any_eq_true.mpr ⟨x, hxl, hxp⟩
    rw [hany] at this
    exact Bool.false_ne_true this

theorem items_to_remove_mem (project : List ProjectRow) (ids : List String)
    (p : ProjectRow) :
    p ∈ items_to_remove project ids ↔
      p ∈ project ∧ (p.linked_id = none ∨ ∀ s ∈ ids, p.linked_id ≠ some s) := by
  unfold items_to_remove
  rw [List.mem_filter]
  constructor
  · rintro ⟨hp, hcond⟩
    refine ⟨hp, ?_⟩
    cases hl : p.linked_id with
    | none => exact Or.inl rfl
    | some s =>
      right
      intro s2 hs2 heq
      obtain rfl : s = s2 := Option.some.inj heq
      simp [hl, isin_index] at hcond
      exact hcond hs2
  · rintro ⟨hp, hcond⟩
    refine ⟨hp, ?_⟩
    rcases hcond with hnone | hall
    · simp [hnone]
    · cases hl : p.linked_id with
      | none => simp
      | some s =>
        have hs : s ∉ ids := fun hs => hall s hs hl
        simp [isin_index, hs]

theorem joined_filter_map (project : List ProjectRow) (rows : List QueryRow)
    (q : QueryRow → Bool) :
    ((joined_rows project rows).filter (fun j => not_in_project j && q j.2)).map
        (fun j => j.2) =
      rows.filter (fun r =>
        !(project.any (fun p => p.linked_id == some r.node_id)) && q r) := by
  induction rows with
  | nil => rfl
  | cons r rows ih =>
    have hjoin : joined_rows project (r :: rows) =
        (if (project.filter (fun p => p.linked_id == some r.node_id)).isEmpty
         then [((none : Option ProjectRow), r)]
         else (project.filter (fun p => p.linked_id == some r.node_id)).map
           (fun p => (some p, r))) ++
          joined_rows project rows := by
      simp [joined_rows]
    rw [hjoin, List.filter_append, List.map_append, ih, List.filter_cons]
    by_cases hms : (project.filter (fun p => p.linked_id == some r.node_id)).isEmpty
    · have hany : project.any (fun p => p.linked_id == some r.node_id) = false :=
        (filter_isEmpty_iff_any_false project
          (fun p => p.linked_id == some r.node_id)).mp hms
      rw [if_pos hms, hany]
      by_cases hq : q r
      · simp [List.filter_cons, not_in_project, hq]
      · simp [List.filter_cons, not_in_project, hq]
    · have hany : project.any (fun p => p.linked_id == some r.node_id) = true := by
        by_contra hco
        rw [Bool.not_eq_true] at hco
        exact hms ((filter_isEmpty_iff_any_false project
          (fun p => p.linked_id == some r.node_id)).mpr hco)
      rw [if_neg hms, hany]
      have hdrop : ((project.filter (fun p => p.linked_id == some r.node_id)).map
          (fun p => ((some p : Option ProjectRow), r))).filter
            (fun j => not_in_project j && q j.2) = [] := by
        rw [List.filter_eq_nil_iff]
        intro j hj
        rw [List.mem_map] at hj
        obtain ⟨p, hp, rfl⟩ := hj
        simp [not_in_project]
      rw [hdrop]
      simp

/-- Claim C2: during the full-refresh pass of `update_project.main`
(`updates_only` false), the set of project items removed is exactly those
whose `_linked_id` field is null or whose `_linked_id` is not the id of any
issue/discussion returned by the queries; and after the join, every returned
issue/discussion with no matching project item is added — the non-draft ones
through `issues_to_add` (fed to `AddIssuesMutation`), the draft ones through
`drafts_to_add` (fed to `AddDraftsMutation`). -/
theorem claim_C2 (project : List ProjectRow) (rows : List QueryRow) :
    (∀ p : ProjectRow,
      p ∈ items_to_remove project (rows.map (fun r => r.node_id)) ↔
        p ∈ project ∧
          (p.linked_id = none ∨ ∀ r ∈ rows, p.linked_id ≠ some r.node_id)) ∧
    ((issues_to_add (joined_rows project rows)).map (fun j => j.2) =
      rows.filter (fun r =>
        !(project.any (fun p => p.linked_id == some r.node_id)) && !r.use_draft)) ∧
    ((drafts_to_add (joined_rows project rows)).map (fun j => j.2) =
      rows.filter (fun r =>
        !(project.any (fun p => p.linked_id == some r.node_id)) && r.use_draft)) := by
  refine ⟨?_, ?_, ?_⟩
  · intro p
    rw [items_to_remove_mem]
    constructor
    · rintro ⟨hp, hc⟩
      refine ⟨hp, ?_⟩
      rcases hc with h | h
      · exact Or.inl h
      · exact Or.inr (fun r hr => h r.node_id (List.mem_map_of_mem _ hr))
    · rintro ⟨hp, hc⟩
      refine ⟨hp, ?_⟩
      rcases hc with h | h
      · exact Or.inl h
      · right
        intro s hs
        rw [List.mem_map] at hs
        obtain ⟨r, hr, rfl⟩ := hs
        exact h r hr
  · exact joined_filter_map project rows (fun r => !r.use_draft)
  · exact joined_filter_map project rows (fun r => r.use_draft)

/-- Witness for C2 on a concrete project/rows pair: a project item with an
orphaned `_linked_id` is removed, and the unmatched draft row is added. -/
theorem claim_C2_witness :
    ((⟨"pi3", some "gone"⟩ : ProjectRow) ∈
      items_to_remove
        [⟨"pi1", none⟩, ⟨"pi2", some "n1"⟩, ⟨"pi3", some "gone"⟩]
        ([(⟨"n1", "L", none, false⟩ : QueryRow), ⟨"n2", "L", none, true⟩].map
          (fun r => r.node_id))) ∧
    ((drafts_to_add (joined_rows
        [⟨"pi1", none⟩, ⟨"pi2", some "n1"⟩, ⟨"pi3", some "gone"⟩]
        [(⟨"n1", "L", none, false⟩ : QueryRow), ⟨"n2", "L", none, true⟩])).map
          (fun j => j.2) =
      [(⟨"n2", "L", none, true⟩ : QueryRow)]) := by
  have h := claim_C2
    [⟨"pi1", none⟩, ⟨"pi2", some "n1"⟩, ⟨"pi3", some "gone"⟩]
    [(⟨"n1", "L", none, false⟩ : QueryRow), ⟨"n2", "L", none, true⟩]
  constructor
  · exact (h.1 ⟨"pi3", some "gone"⟩).mpr ⟨by decide, Or.inr (by decide)⟩
  · rw [h.2.2]
    decide

/-- Claim C6: every row produced by `DiscussionsQuery` has `use_draft` true
and `discussion_wanted` set to the DISCUSSION_WANTED selection id, while
every row produced by `IssuesQuery` has `use_draft` false; consequently, in
`main`, the unmatched rows added as linked issues are exactly the unmatched
issue-query rows, and the rows added as drafts are exactly the unmatched
discussion-query rows. -/
theorem claim_C6 (discuss_match : String → Bool) (r : QueryRow)
    (project : List ProjectRow) (issue_rows disc_rows : List QueryRow) :
    ((discussions_post_process_row discuss_match r).use_draft = true) ∧
    ((discussions_post_process_row discuss_match r).discussion_wanted =
      some DISCUSSION_WANTED) ∧
    ((issues_post_process_row discuss_match r).use_draft = false) ∧
    ((issues_to_add (joined_rows project
        (issue_rows.map (issues_post_process_row discuss_match) ++
          disc_rows.map (discussions_post_process_row discuss_match)))).map
            (fun j => j.2) =
      (issue_rows.map (issues_post_process_row discuss_match)).filter (fun r2 =>
        !(project.any (fun p => p.linked_id == some r2.node_id)))) ∧
    ((drafts_to_add (joined_rows project
        (issue_rows.map (issues_post_process_row discuss_match) ++
          disc_rows.map (discussions_post_process_row discuss_match)))).map
            (fun j => j.2) =
      (disc_rows.map (discussions_post_process_row discuss_match)).filter (fun r2 =>
        !(project.any (fun p => p.linked_id == some r2.node_id)))) := by
  have huse_iss : ∀ x ∈ issue_rows.map (issues_post_process_row discuss_match),
      x.use_draft = false := by
    intro x hx
    rw [List.mem_map] at hx
    obtain ⟨y, hy, rfl⟩ := hx
    by_cases hd : discuss_match y.labels_text <;>
      simp [issues_post_process_row, hd]
  have huse_disc : ∀ x ∈ disc_rows.map (discussions_post_process_row discuss_match),
      x.use_draft = true := by
    intro x hx
    rw [List.mem_map] at hx
    obtain ⟨y, hy, rfl⟩ := hx
    by_cases hd : discuss_match y.labels_text <;>
      simp [discussions_post_process_row, issues_post_process_row, hd]
  refine ⟨?_, ?_, ?_, ?_, ?_⟩
  · by_cases hd : discuss_match r.labels_text <;>
      simp [discussions_post_process_row, issues_post_process_row, hd]
  · by_cases hd : discuss_match r.labels_text <;>
      simp [discussions_post_process_row, issues_post_process_row, hd]
  · by_cases hd : discuss_match r.labels_text <;>
      simp [issues_post_process_row, hd]
  · have hjf := joined_filter_map project
      (issue_rows.map (issues_post_process_row discuss_match) ++
        disc_rows.map (discussions_post_process_row discuss_match))
      (fun q2 => !q2.use_draft)
    rw [List.filter_append] at hjf
    have hiss : (issue_rows.map (issues_post_process_row discuss_match)).filter
        (fun r2 => !(project.any (fun p => p.linked_id == some r2.node_id)) &&
          !r2.use_draft) =
        (issue_rows.map (issues_post_process_row discuss_match)).filter (fun r2 =>
          !(project.any (fun p => p.linked_id == some r2.node_id))) := by
      apply List.filter_congr
      intro x hx
      simp [huse_iss x hx]
    have hdisc : (disc_rows.map (discussions_post_process_row discuss_match)).filter
        (fun r2 => !(project.any (fun p => p.linked_id == some r2.node_id)) &&
          !r2.use_draft) = [] := by
      rw [List.filter_eq_nil_iff]
      intro x hx
      simp [huse_disc x hx]
    rw [hiss, hdisc, List.append_nil] at hjf
    exact hjf
  · have hjf := joined_filter_map project
      (issue_rows.map (issues_post_process_row discuss_match) ++
        disc_rows.map (discussions_post_process_row discuss_match))
      (fun q2 => q2.use_draft)
    rw [List.filter_append] at hjf
    have hiss : (issue_rows.map (issues_post_process_row discuss_match)).filter
        (fun r2 => !(project.any (fun p => p.linked_id == some r2.node_id)) &&
          r2.use_draft) = [] := by
      rw [List.filter_eq_nil_iff]
      intro x hx
      simp [huse_iss x hx]
    have hdisc : (disc_rows.map (discussions_post_process_row discuss_match)).filter
        (fun r2 => !(project.any (fun p => p.linked_id == some r2.node_id)) &&
          r2.use_draft) =
        (disc_rows.map (discussions_post_process_row discuss_match)).filter (fun r2 =>
          !(project.any (fun p => p.linked_id == some r2.node_id))) := by
      apply List.filter_congr
      intro x hx
      simp [huse_disc x hx]
    rw [hiss, hdisc, List.nil_append] at hjf
    exact hjf

/-- Witness for C6 on concrete rows: the discussion row is post-processed to
a draft with the DISCUSSION_WANTED selection, and only discussion rows are
added as drafts. -/
theorem claim_C6_witness :
    ((discussions_post_process_row (fun s => s == "help")
        ⟨"d2", "", none, false⟩).use_draft = true) ∧
    ((discussions_post_process_row (fun s => s == "help")
        ⟨"d2", "", none, false⟩).discussion_wanted = some "e17f4b18") ∧
    ((drafts_to_add (joined_rows [(⟨"pi1", some "d1"⟩ : ProjectRow)]
        ([(⟨"i1", "", none, true⟩ : QueryRow)].map
            (issues_post_process_row (fun s => s == "help")) ++
          [(⟨"d1", "", none, false⟩ : QueryRow), ⟨"d2", "", none, false⟩].map
            (discussions_post_process_row (fun s => s == "help"))))).map
              (fun j => j.2) =
      [discussions_post_process_row (fun s => s == "help") ⟨"d2", "", none, false⟩]) := by
  have h := claim_C6 (fun s => s == "help") ⟨"d2", "", none, false⟩
    [(⟨"pi1", some "d1"⟩ : ProjectRow)]
    [(⟨"i1", "", none, true⟩ : QueryRow)]
    [(⟨"d1", "", none, false⟩ : QueryRow), ⟨"d2", "", none, false⟩]
  refine ⟨h.1, ?_, ?_⟩
  · have := h.2.1
    simpa [DISCUSSION_WANTED] using this
  · rw [h.2.2.2.2]
    decide

/-! ### `Config.find_template` under the uniqueness assumption (claim C10) -/

/-- Claim C10: under the precondition that the templating config maps the
given (repo, path_in_repo) pair to at most one template, the
`assert len(matches) <= 1` in `find_template` never fails (the result is not
the assertion-failure value `none`), and `find_template` returns the unique
template governing the pair (`some (some t)` exactly when `(t, repo, path)`
is in the flattened config) or `some none` exactly when no template governs
it. -/
theorem claim_C10 (c : Config) (repo path_in_repo : String)
    (h : ((flattenedConfig c).filter
        (fun x => x.2.1 == repo && x.2.2 == path_in_repo)).length ≤ 1) :
    (find_template c repo path_in_repo ≠ none) ∧
    (∀ t : String,
      find_template c repo path_in_repo = some (some t) ↔
        (t, repo, path_in_repo) ∈ flattenedConfig c) ∧
    (find_template c repo path_in_repo = some none ↔
      ∀ t : String, (t, repo, path_in_repo) ∉ flattenedConfig c) := by
  have hmemF : ∀ t : String,
      ((t, repo, path_in_repo) ∈ flattenedConfig c ↔
        (t, repo, path_in_repo) ∈ (flattenedConfig c).filter
          (fun x => x.2.1 == repo && x.2.2 == path_in_repo)) := by
    intro t
    constructor
    · intro hmem
      exact List.mem_filter.mpr ⟨hmem, by simp⟩
    · intro hmem
      exact (List.mem_filter.mp hmem).1
  have hfind : find_template c repo path_in_repo =
      some (((flattenedConfig c).filter
        (fun x => x.2.1 == repo && x.2.2 == path_in_repo)).map (fun x => x.1)).head? := by
    simp only [find_template]
    rw [if_pos (by rw [List.length_map]; exact h)]
  generalize hFeq : (flattenedConfig c).filter
      (fun x => x.2.1 == repo && x.2.2 == path_in_repo) = F at h hmemF hfind
  cases F with
  | nil =>
    refine ⟨by simp [hfind], ?_, ?_⟩
    · intro t
      rw [hfind]
      simp [hmemF t]
    · rw [hfind]
      simp only [List.map_nil, List.head?_nil]
      constructor
      · intro _ t
        simp [hmemF t]
      · intro _
        trivial
  | cons x xs =>
    cases xs with
    | cons y ys =>
      exfalso
      simp only [List.length_cons] at h
      omega
    | nil =>
      have hxF : x ∈ (flattenedConfig c).filter
          (fun z => z.2.1 == repo && z.2.2 == path_in_repo) := by
        rw [hFeq]
        exact List.mem_singleton_self x
      have hxmem := (List.mem_filter.mp hxF).1
      have hxpred := (List.mem_filter.mp hxF).2
      obtain ⟨a, b2, c2⟩ := x
      have hpred2 : b2 = repo ∧ c2 = path_in_repo := by simpa using hxpred
      have hx1 : repo = b2 := hpred2.1.symm
      have hx2 : path_in_repo = c2 := hpred2.2.symm
      subst hx1
      subst hx2
      refine ⟨by simp [hfind], ?_, ?_⟩
      · intro t
        rw [hfind]
        simp only [List.map_cons, List.map_nil, List.head?_cons, Option.some.injEq]
        constructor
        · intro heq
          obtain rfl : a = t := by simpa using heq
          exact hxmem
        · intro hmem
          have : ((t, repo, path_in_repo) : String × String × String) ∈
              [((a, repo, path_in_repo) : String × String × String)] := (hmemF t).mp hmem
          have heq := List.mem_singleton.mp this
          simp only [Prod.mk.injEq] at heq
          simp [heq.1]
      · rw [hfind]
        refine iff_of_false (by simp) ?_
        intro hall
        exact hall a hxmem

/-- Witness for C10 on a one-template config: the assertion passes and the
governing template is returned. -/
theorem claim_C10_witness :
    (find_template ⟨[("ruff.toml", [⟨"iris", "ruff.toml"⟩])]⟩ "iris" "ruff.toml" =
      some (some "ruff.toml")) ∧
    (find_template ⟨[("ruff.toml", [⟨"iris", "ruff.toml"⟩])]⟩ "tephi" "ruff.toml" =
      some none) := by
  have h1 := claim_C10 ⟨[("ruff.toml", [⟨"iris", "ruff.toml"⟩])]⟩ "iris" "ruff.toml"
    (by decide)
  have h2 := claim_C10 ⟨[("ruff.toml", [⟨"iris", "ruff.toml"⟩])]⟩ "tephi" "ruff.toml"
    (by decide)
  constructor
  · exact (h1.2.1 "ruff.toml").mpr (by decide)
  · refine h2.2.2.mpr ?_
    intro t hmem
    simp [flattenedConfig] at hmem
